import Mathlib

/-!
# Verification of `fs-caching-server`

A shallow embedding, in Lean 4, of the core request-handling logic of the
`fs-caching-server` HTTP caching proxy (`fs-caching-server.js`), together
with theorems checking the natural-language specification against it.

The embedding covers:

* header filtering for proxied requests and responses
  (`NO_PROXY_HEADERS`, `buildUpstreamHeaders`, `copyResponseHeaders`);
* pathname resolution: percent-decoding (`decodeURIComponentM`,
  modelling the runtime `decodeURIComponent` builtin), lexical path
  normalization (`posixNormalize`, modelling `path.posix.normalize`) and
  joining under the cache root (`posixJoin`, modelling `path.posix.join`);
* the cache-hit responder `streamFile` (lines 476-505 of the source);
* the per-key request-coalescing state machine of `_onRequest`
  (lines 264-446): the `inProgress` registry, waiter queues, the upstream
  status dispatch, and the temp-file-then-rename publish sequence
  (`stepArrive`, `stepUpstream`, `fillTrace`).

The model is sequential: each event (request arrival, upstream response)
runs to completion before the next one, matching the single-threaded
event-loop execution of the source.  Requests in the coalescing model are
plain GET requests without conditional headers; conditional (`ETag`)
handling is modelled separately and faithfully in `streamFile`.
-/

/-! ## Headers -/

/-- HTTP headers as an association list of (lowercased name, value),
matching the order-preserving object semantics of node's header maps. -/
abbrev Headers := List (String × String)

/-- Model of assigning `obj[k] = v` on a header object: replaces the value
in place when the name is already present, otherwise appends. -/
def setH (hs : Headers) (k v : String) : Headers :=
  if hs.any (fun p => p.fst == k) then
    hs.map (fun p => if p.fst == k then (k, v) else p)
  else
    hs ++ [(k, v)]

/-- Header lookup by name. -/
def getHeader (hs : Headers) (k : String) : Option String :=
  (hs.find? (fun p => p.fst == k)).map (fun p => p.snd)

/-- Line 29 of the source: the module-level constant
`NO_PROXY_HEADERS = ['date', 'server', 'host']`. -/
def NO_PROXY_HEADERS : List String := ["date", "server", "host"]

/-- Line 117 of the source:
`self.noProxyHeaders = opts.noProxyHeaders || NO_PROXY_HEADERS`. -/
def configuredNoProxyHeaders (optsNoProxyHeaders : Option (List String)) :
    List String :=
  optsNoProxyHeaders.getD NO_PROXY_HEADERS

/-- Lines 236-244 (and identically lines 302-307) of the source: build the
header object for the outbound upstream request.  The source copies every
request header whose name is not in the module constant `NO_PROXY_HEADERS`
and then overwrites `host` with the upstream authority
(`uri.headers.host = uri.host`).  The configured `self.noProxyHeaders`
(line 117) is never consulted at these sites; the `noProxyHeaders`
argument mirrors that configured value and is deliberately unused, exactly
as in the source. -/
def buildUpstreamHeaders (noProxyHeaders : List String)
    (reqHeaders : Headers) (upstreamHost : String) : Headers :=
  setH (reqHeaders.filter (fun p => !NO_PROXY_HEADERS.contains p.fst))
    "host" upstreamHost

/-- The header copy as the specification words it ("the headers copied to
the upstream request exclude exactly those named in the configured header
exclusion list"): filtering by the configured list, for comparison with
`buildUpstreamHeaders` which is translated from the source. -/
def buildUpstreamHeadersSpec (noProxyHeaders : List String)
    (reqHeaders : Headers) (upstreamHost : String) : Headers :=
  setH (reqHeaders.filter (fun p => !noProxyHeaders.contains p.fst))
    "host" upstreamHost

/-- Lines 246-251 (and identically lines 315-319, 416-420) of the source:
copy upstream response headers onto a client response via `res.setHeader`,
skipping names in the module constant `NO_PROXY_HEADERS`. -/
def copyResponseHeaders (resHeaders oresHeaders : Headers) : Headers :=
  oresHeaders.foldl
    (fun acc p =>
      if NO_PROXY_HEADERS.contains p.fst then acc else setH acc p.fst p.snd)
    resHeaders

/-! ## Pathname resolution (lines 214-224 and 264-265)

`file = path.posix.normalize(decodeURIComponent(parsed.pathname))`, with a
thrown `URIError` answered by a 400 response, followed later by
`file = path.join(self.cacheDir, file)`. -/

/-- Value of a hexadecimal digit character. -/
def hexDigit? (c : Char) : Option Nat :=
  if '0' ≤ c ∧ c ≤ '9' then some (c.toNat - '0'.toNat)
  else if 'a' ≤ c ∧ c ≤ 'f' then some (c.toNat - 'a'.toNat + 10)
  else if 'A' ≤ c ∧ c ≤ 'F' then some (c.toNat - 'A'.toNat + 10)
  else none

/-- Byte denoted by two hexadecimal digit characters. -/
def hex2? (h l : Char) : Option Nat := do
  let a ← hexDigit? h
  let b ← hexDigit? l
  pure (a * 16 + b)

/-- Is `b` a UTF-8 continuation byte (`10xxxxxx`)? -/
def contOk (b : Nat) : Bool := 0x80 ≤ b && b < 0xC0

/-- Model of the ECMAScript `decodeURIComponent` builtin used at line 218,
on the character list of the input: literal characters pass through; a
`%XX` escape must carry two hex digits; escapes with the high bit set must
form a valid (shortest-form, non-surrogate, in-range) UTF-8 sequence of
further escapes.  `none` models the thrown `URIError`. -/
def decodeCore : List Char → Option (List Char)
  | [] => some []
  | '%' :: h :: l :: cs =>
    match hex2? h l with
    | none => none
    | some b =>
      if b < 0x80 then
        (decodeCore cs).map (fun r => Char.ofNat b :: r)
      else if 0xC2 ≤ b ∧ b ≤ 0xDF then
        match cs with
        | '%' :: h2 :: l2 :: cs2 =>
          match hex2? h2 l2 with
          | some b2 =>
            if contOk b2 then
              (decodeCore cs2).map
                (fun r => Char.ofNat ((b - 0xC0) * 64 + (b2 - 0x80)) :: r)
            else none
          | none => none
        | _ => none
      else if 0xE0 ≤ b ∧ b ≤ 0xEF then
        match cs with
        | '%' :: h2 :: l2 :: '%' :: h3 :: l3 :: cs2 =>
          match hex2? h2 l2, hex2? h3 l3 with
          | some b2, some b3 =>
            if contOk b2 && contOk b3 then
              let cp := (b - 0xE0) * 4096 + (b2 - 0x80) * 64 + (b3 - 0x80)
              if 0x800 ≤ cp ∧ ¬(0xD800 ≤ cp ∧ cp ≤ 0xDFFF) then
                (decodeCore cs2).map (fun r => Char.ofNat cp :: r)
              else none
            else none
          | _, _ => none
        | _ => none
      else if 0xF0 ≤ b ∧ b ≤ 0xF4 then
        match cs with
        | '%' :: h2 :: l2 :: '%' :: h3 :: l3 :: '%' :: h4 :: l4 :: cs2 =>
          match hex2? h2 l2, hex2? h3 l3, hex2? h4 l4 with
          | some b2, some b3, some b4 =>
            if contOk b2 && contOk b3 && contOk b4 then
              let cp := (b - 0xF0) * 262144 + (b2 - 0x80) * 4096 +
                (b3 - 0x80) * 64 + (b4 - 0x80)
              if 0x10000 ≤ cp ∧ cp ≤ 0x10FFFF then
                (decodeCore cs2).map (fun r => Char.ofNat cp :: r)
              else none
            else none
          | _, _, _ => none
        | _ => none
      else none
  | '%' :: _ => none
  | c :: cs => (decodeCore cs).map (fun r => c :: r)

/-- `decodeURIComponent` on a string; `none` models the thrown `URIError`
caught at lines 217-224. -/
def decodeURIComponentM (s : String) : Option String :=
  (decodeCore s.data).map String.mk

/-- Split a character list on `/` separators, keeping empty segments, as
`path.posix` does internally. -/
def splitSegsAux : List Char → List Char → List (List Char)
  | acc, [] => [acc.reverse]
  | acc, '/' :: cs => acc.reverse :: splitSegsAux [] cs
  | acc, c :: cs => splitSegsAux (c :: acc) cs

/-- Segments of a path (split on `/`). -/
def splitSegs (cs : List Char) : List (List Char) := splitSegsAux [] cs

/-- Segment normalization of `path.posix.normalize`: drops empty and `.`
segments; `..` pops the previous real segment, is dropped at the root of
an absolute path, and is kept (stacked) at the front of a relative path.
`acc` holds the output segments in reverse. -/
def normSegs (isAbs : Bool) : List (List Char) → List (List Char) →
    List (List Char)
  | acc, [] => acc.reverse
  | acc, seg :: rest =>
    if seg = [] ∨ seg = ['.'] then normSegs isAbs acc rest
    else if seg = ['.', '.'] then
      match acc with
      | [] =>
        if isAbs then normSegs isAbs [] rest
        else normSegs isAbs [['.', '.']] rest
      | top :: acc2 =>
        if top = ['.', '.'] then normSegs isAbs (seg :: acc) rest
        else normSegs isAbs acc2 rest
    else normSegs isAbs (seg :: acc) rest

/-- Join segments with `/`. -/
def joinSegs : List (List Char) → List Char
  | [] => []
  | [s] => s
  | s :: rest => s ++ '/' :: joinSegs rest

/-- `path.posix.normalize` on a character list: empty input yields `.`;
otherwise segments are normalized (`normSegs`), a leading `/` is restored
for absolute inputs, an empty result becomes `/` or `.`, and a trailing
separator is preserved. -/
def normalizeChars (cs : List Char) : List Char :=
  if cs = [] then ['.']
  else
    let isAbs := cs.head? = some '/'
    let trail := cs.getLast? = some '/' ∧ 1 < cs.length
    let segs := normSegs isAbs [] (splitSegs cs)
    let core := joinSegs segs
    let core2 := if isAbs then '/' :: core else core
    let core3 :=
      if core2 = [] then (if isAbs then ['/'] else ['.']) else core2
    if trail ∧ core3.getLast? ≠ some '/' then core3 ++ ['/'] else core3

/-- `path.posix.normalize` (line 218 of the source). -/
def posixNormalize (p : String) : String := String.mk (normalizeChars p.data)

/-- `path.join` for two parts (line 265 of the source): empty parts are
skipped, the rest are joined with `/` and the result normalized; all-empty
input yields `.`. -/
def posixJoin (a b : String) : String :=
  if a = "" ∧ b = "" then "."
  else if a = "" then posixNormalize b
  else if b = "" then posixNormalize a
  else posixNormalize (a ++ "/" ++ b)

/-- Outcome of the pathname-resolution phase of `_onRequest`: either an
immediate 400 (undecodable pathname, lines 219-223) or a store lookup at
the resolved path (lines 218, 265, 268). -/
inductive ResolveOutcome where
  | reject400
  | lookup (storePath : String)
deriving DecidableEq

/-- Lines 214-224 and 264-265 of the source: decode the request pathname,
normalize it, and join it under the cache root; a decode failure is
answered with a 400 response before any filesystem or upstream access. -/
def resolvePhase (cacheDir pathname : String) : ResolveOutcome :=
  match decodeURIComponentM pathname with
  | none => ResolveOutcome.reject400
  | some d => ResolveOutcome.lookup (posixJoin cacheDir (posixNormalize d))

/-! ## Cache-hit responder: `streamFile` (lines 476-505) -/

/-- The fields of an `fs.Stats` value used by `streamFile`: file size and
modification time in milliseconds since the epoch (`stats.mtime.getTime()`). -/
structure Stats where
  size : Nat
  mtimeMs : Nat
deriving DecidableEq

/-- The fields of an incoming request used by `streamFile`. -/
structure Request where
  method : String
  headers : Headers
deriving DecidableEq

/-- A finished HTTP response: status code, headers and body bytes. -/
structure SFResponse where
  statusCode : Nat
  headers : Headers
  body : List Nat
deriving DecidableEq

/-- Outcome of reading the cached file (`fs.createReadStream`, lines
496-501): the content, or a vanished-file error (`ENOENT`), or any other
read error. -/
inductive ReadResult where
  | ok (content : List Nat)
  | enoent
  | otherErr
deriving DecidableEq

/-- Line 477 of the source:
`etag = util.format('"%d-%d"', stats.size, stats.mtime.getTime())`. -/
def etagOf (stats : Stats) : String :=
  "\"" ++ toString stats.size ++ "-" ++ toString stats.mtimeMs ++ "\""

/-- Lines 476-505 of the source: serve a store hit.  `mime` models the
external `mime.lookup` collaborator (content type from the file name),
`utc` models `Date.prototype.toUTCString`, and `readResult` the outcome of
streaming the file from disk.  Headers are set in source order
(Last-Modified, Content-Type, ETag, then Content-Length after the
conditional check); a matching `if-none-match` yields 304 with no body and
no Content-Length; a HEAD request then ends with no body; otherwise the
file is streamed, with a read error mapped to 404 (`ENOENT`) or 500. -/
def streamFile (mime : String → String) (utc : Nat → String)
    (readResult : ReadResult) (file : String) (stats : Stats)
    (req : Request) : SFResponse :=
  let etag := etagOf stats
  let hs0 := setH (setH (setH [] "last-modified" (utc stats.mtimeMs))
    "content-type" (mime file)) "etag" etag
  if getHeader req.headers "if-none-match" = some etag then
    { statusCode := 304, headers := hs0, body := [] }
  else
    let hs1 := setH hs0 "content-length" (toString stats.size)
    if req.method = "HEAD" then
      { statusCode := 200, headers := hs1, body := [] }
    else
      match readResult with
      | ReadResult.ok c => { statusCode := 200, headers := hs1, body := c }
      | ReadResult.enoent => { statusCode := 404, headers := hs1, body := [] }
      | ReadResult.otherErr => { statusCode := 500, headers := hs1, body := [] }

/-! ## The coalescing state machine of `_onRequest` (lines 264-446)

State: the filesystem under the cache root (`store`) and the per-key
in-flight registry (`self.inProgress`).  Events are request arrivals for
an already-resolved cache-eligible store path (the stat callback, lines
268-382) and upstream responses for a pending fetch (the `_request`
callback plus `finish`, lines 312-435).  Requests in this model are plain
GET requests without conditional headers; the response bodies recorded in
the outputs are the bytes streamed to each client. -/

/-- A filesystem entry: content bytes, or a directory. -/
structure Entry where
  content : List Nat
  isDir : Bool
deriving DecidableEq

/-- The per-key in-flight record: the triggering request (whose response
object is captured by the `_request` callback closure) and the waiter
queue (`self.inProgress[file]`, requests queued at lines 285-293). -/
structure InFlight where
  trig : Nat
  waiters : List Nat
deriving DecidableEq

/-- Server state: the cache-root filesystem and the in-flight registry. -/
structure SState where
  store : String → Option Entry
  inProgress : String → Option InFlight

/-- Pointwise map update. -/
def mupdate {α : Type} (m : String → Option α) (k : String)
    (v : Option α) : String → Option α :=
  fun k2 => if k2 = k then v else m k2

/-- Observable outputs: an upstream fetch being started (lines 296-312),
or a response delivered to a client (status, headers, body bytes). -/
inductive Output where
  | fetchStarted (key : String)
  | respond (rid : Nat) (status : Nat) (headers : Headers) (body : List Nat)
deriving DecidableEq

/-- Line 333 of the source: `tmp = file + '.in-progress'`. -/
def tmpName (key : String) : String := key ++ ".in-progress"

/-- Is this output an upstream fetch being started? -/
def isFetchStarted : Output → Bool
  | Output.fetchStarted _ => true
  | _ => false

/-- The stat callback of `_onRequest` (lines 268-312) for a cache-eligible
request `rid` whose resolved store path is `key`: a directory yields 400;
a file is streamed to the client (`streamFile`; its stat-derived headers
are modelled separately by `streamFile` above); with a fetch already in
flight the request is appended to the waiter queue and nothing else
happens; otherwise an empty waiter queue is registered under `key` and the
upstream fetch is started. -/
def stepArrive (s : SState) (rid : Nat) (key : String) :
    SState × List Output :=
  match s.store key with
  | some e =>
    if e.isDir then (s, [Output.respond rid 400 [] []])
    else (s, [Output.respond rid 200 [] e.content])
  | none =>
    match s.inProgress key with
    | some f =>
      ({ s with inProgress :=
          mupdate s.inProgress key (some ⟨f.trig, f.waiters ++ [rid]⟩) }, [])
    | none =>
      ({ s with inProgress := mupdate s.inProgress key (some ⟨rid, []⟩) },
        [Output.fetchStarted key])

/-- The upstream-response callback for the pending fetch of `key`
(lines 312-370) together with `finish` (lines 387-435).  The triggering
client's response gets the upstream status and the filtered upstream
headers (lines 313-319).  A status outside [200,300) (lines 321-330)
produces no filesystem operation at all: `finish({statusCode})` ends every
waiter with that same status and an empty body (lines 392-401), and the
triggering client's response is ended with an empty body (the
`ores.pipe(res)` at line 322 is commented out in the source).  A 2xx
status writes the body to `tmpName key` and renames it to `key`
(lines 332-368; the intermediate filesystem states of this sequence are
spelled out by `fillTrace` below), then `finish({ores})` re-stats the file
and streams it to every waiter with the upstream status and filtered
headers (lines 403-434).  In both cases the in-flight record for `key` is
removed. -/
def stepUpstream (s : SState) (key : String) (status : Nat)
    (uheaders : Headers) (body : List Nat) : SState × List Output :=
  match s.inProgress key with
  | none => (s, [])
  | some f =>
    let th := copyResponseHeaders [] uheaders
    if status < 200 ∨ 300 ≤ status then
      ({ s with inProgress := mupdate s.inProgress key none },
        (f.waiters.map (fun w => Output.respond w status [] [])) ++
          [Output.respond f.trig status th []])
    else
      ({ store := mupdate (mupdate s.store (tmpName key) none) key
            (some ⟨body, false⟩),
         inProgress := mupdate s.inProgress key none },
        (f.waiters.map (fun w => Output.respond w status th body)) ++
          [Output.respond f.trig status th body])

/-- An event: a cache-eligible request arriving for store path `key`, or
the upstream's response to the pending fetch for `key`. -/
inductive Event where
  | arrive (rid : Nat) (key : String)
  | upstream (key : String) (status : Nat) (uheaders : Headers)
      (body : List Nat)

/-- Process one event. -/
def step (s : SState) : Event → SState × List Output
  | Event.arrive rid key => stepArrive s rid key
  | Event.upstream key status uheaders body =>
    stepUpstream s key status uheaders body

/-- Process a sequence of events, collecting outputs in order. -/
def run (s : SState) : List Event → SState × List Output
  | [] => (s, [])
  | e :: es =>
    let r1 := step s e
    let r2 := run r1.1 es
    (r2.1, r1.2 ++ r2.2)

/-- Lines 332-368 of the source, at filesystem-operation granularity: the
successive filesystem states of a successful cache fill of `key` with
body `body`.  `fs.createWriteStream(tmp)` creates the temporary file
empty; each chunk write extends it by a prefix of the body; after the
write stream finishes, `fs.rename(tmp, file)` removes the temporary name
and publishes the full content at the canonical path. -/
def fillTrace (fs : String → Option Entry) (key : String)
    (body : List Nat) : List (String → Option Entry) :=
  ((List.range (body.length + 1)).map
    (fun i => mupdate fs (tmpName key) (some ⟨body.take i, false⟩))) ++
  [mupdate (mupdate fs (tmpName key) none) key (some ⟨body, false⟩)]

/-! ## Helper lemmas -/

theorem mupdate_self {α : Type} (m : String → Option α) (k : String)
    (v : Option α) : mupdate m k v k = v := by
  simp [mupdate]

theorem mupdate_other {α : Type} (m : String → Option α) (k k2 : String)
    (v : Option α) (h : k2 ≠ k) : mupdate m k v k2 = m k2 := by
  simp [mupdate, h]

theorem mupdate_mupdate {α : Type} (m : String → Option α) (k : String)
    (v w : Option α) : mupdate (mupdate m k v) k w = mupdate m k w := by
  funext k2
  by_cases h : k2 = k <;> simp [mupdate, h]

theorem mupdate_eq_self {α : Type} (m : String → Option α) (k : String)
    (v : Option α) (h : m k = v) : mupdate m k v = m := by
  funext k2
  by_cases hk : k2 = k
  · subst hk; simp [mupdate, h]
  · simp [mupdate, hk]

theorem tmpName_ne (key : String) : tmpName key ≠ key := by
  intro h
  have hl := congrArg String.length h
  rw [tmpName, String.length_append] at hl
  have h12 : (".in-progress" : String).length = 12 := rfl
  omega

theorem run_append (l1 : List Event) : ∀ (s : SState) (l2 : List Event),
    run s (l1 ++ l2) =
      ((run (run s l1).1 l2).1, (run s l1).2 ++ (run (run s l1).1 l2).2) := by
  induction l1 with
  | nil => intro s l2; simp [run]
  | cons e es ih => intro s l2; simp [run, ih, List.append_assoc]

theorem run_arrivals (key : String) : ∀ (ws : List Nat) (s : SState)
    (f : InFlight), s.store key = none → s.inProgress key = some f →
    run s (ws.map (fun w => Event.arrive w key)) =
      ({ store := s.store,
         inProgress :=
           mupdate s.inProgress key (some ⟨f.trig, f.waiters ++ ws⟩) }, []) := by
  intro ws
  induction ws with
  | nil =>
    intro s f h1 h2
    simp only [List.map_nil, run, List.append_nil]
    rw [mupdate_eq_self s.inProgress key (some ⟨f.trig, f.waiters⟩) (by rw [h2])]
  | cons w ws ih =>
    intro s f h1 h2
    simp only [List.map_cons, run, step, stepArrive, h1, h2]
    rw [ih { store := s.store,
             inProgress := mupdate s.inProgress key
               (some ⟨f.trig, f.waiters ++ [w]⟩) }
          ⟨f.trig, f.waiters ++ [w]⟩ h1 (mupdate_self _ _ _)]
    simp [mupdate_mupdate, List.append_assoc]

theorem normSegs_no_dotdot : ∀ (l acc : List (List Char)),
    ['.', '.'] ∉ acc → ['.', '.'] ∉ normSegs true acc l := by
  intro l
  induction l with
  | nil =>
    intro acc h
    simp only [normSegs]
    intro hmem
    exact h (List.mem_reverse.mp hmem)
  | cons seg rest ih =>
    intro acc h
    simp only [normSegs]
    by_cases hes : seg = [] ∨ seg = ['.']
    · simp only [if_pos hes]
      exact ih acc h
    · simp only [if_neg hes]
      by_cases hdd : seg = ['.', '.']
      · simp only [if_pos hdd]
        cases acc with
        | nil => simpa using ih [] (by simp)
        | cons top acc2 =>
          have htop : ¬top = ['.', '.'] := fun hh => h (by simp [hh])
          simp only [if_neg htop]
          exact ih acc2 (fun hm => h (List.mem_cons_of_mem _ hm))
      · simp only [if_neg hdd]
        refine ih (seg :: acc) ?_
        intro hm
        rcases List.mem_cons.mp hm with h1 | h2
        · exact hdd h1.symm
        · exact h h2

/-! ## Claim theorems -/

/-- C7: the claim states that proxied requests exclude exactly the headers
named in the configured exclusion list `opts.noProxyHeaders`.  The source
stores that option (line 117) but every filtering site uses the module
constant `NO_PROXY_HEADERS` instead, contradicting the option's own
documentation (lines 62-64).  At configuration `["x-secret"]` with request
headers `date, x-secret`: the code forwards `x-secret` and strips `date`,
while the documented/specified behaviour strips `x-secret` and forwards
`date`; the two diverge. -/
theorem c7_configured_header_exclusion_ignored :
    buildUpstreamHeaders (configuredNoProxyHeaders (some ["x-secret"]))
        [("date", "D"), ("x-secret", "S")] "backend:80" =
      [("x-secret", "S"), ("host", "backend:80")] ∧
    buildUpstreamHeadersSpec (configuredNoProxyHeaders (some ["x-secret"]))
        [("date", "D"), ("x-secret", "S")] "backend:80" =
      [("date", "D"), ("host", "backend:80")] ∧
    buildUpstreamHeaders (configuredNoProxyHeaders (some ["x-secret"]))
        [("date", "D"), ("x-secret", "S")] "backend:80" ≠
      buildUpstreamHeadersSpec (configuredNoProxyHeaders (some ["x-secret"]))
        [("date", "D"), ("x-secret", "S")] "backend:80" := by
  decide

/-- C8: on a store hit, the entity tag is `etagOf stats`, a function of
the stored file's size and modification timestamp only, and a request
whose `If-None-Match` header equals that tag receives a 304 response with
an empty body (and the computed tag in its `ETag` header). -/
theorem c8_matching_etag_gives_304 (mime : String → String)
    (utc : Nat → String) (rr : ReadResult) (file : String) (stats : Stats)
    (req : Request)
    (h : getHeader req.headers "if-none-match" = some (etagOf stats)) :
    (streamFile mime utc rr file stats req).statusCode = 304 ∧
    (streamFile mime utc rr file stats req).body = [] ∧
    getHeader (streamFile mime utc rr file stats req).headers "etag" =
      some (etagOf stats) := by
  simp only [streamFile]
  rw [if_pos h]
  simp [setH, getHeader, List.find?]

theorem c8_matching_etag_gives_304_witness :
    getHeader [("if-none-match", etagOf ⟨3, 5⟩)] "if-none-match" =
      some (etagOf ⟨3, 5⟩) ∧
    ((streamFile (fun _ => "image/png") (fun _ => "utc")
        (ReadResult.ok [1]) "a.png" ⟨3, 5⟩
        ⟨"GET", [("if-none-match", etagOf ⟨3, 5⟩)]⟩).statusCode = 304 ∧
      (streamFile (fun _ => "image/png") (fun _ => "utc")
        (ReadResult.ok [1]) "a.png" ⟨3, 5⟩
        ⟨"GET", [("if-none-match", etagOf ⟨3, 5⟩)]⟩).body = [] ∧
      getHeader (streamFile (fun _ => "image/png") (fun _ => "utc")
        (ReadResult.ok [1]) "a.png" ⟨3, 5⟩
        ⟨"GET", [("if-none-match", etagOf ⟨3, 5⟩)]⟩).headers "etag" =
          some (etagOf ⟨3, 5⟩)) :=
  ⟨by decide,
    c8_matching_etag_gives_304 (fun _ => "image/png") (fun _ => "utc")
      (ReadResult.ok [1]) "a.png" ⟨3, 5⟩
      ⟨"GET", [("if-none-match", etagOf ⟨3, 5⟩)]⟩ (by decide)⟩

/-- C9: every header of a store-hit response is one of Last-Modified,
Content-Type, ETag or Content-Length, each derived from the stored file's
stat and name (`streamFile` receives no upstream header at all, so none
can be replayed); Content-Length is present whenever the 304 branch is
not taken. -/
theorem c9_hit_headers_stat_derived_only (mime : String → String)
    (utc : Nat → String) (rr : ReadResult) (file : String) (stats : Stats)
    (req : Request) :
    (∀ hv ∈ (streamFile mime utc rr file stats req).headers,
      hv = ("last-modified", utc stats.mtimeMs) ∨
      hv = ("content-type", mime file) ∨
      hv = ("etag", etagOf stats) ∨
      hv = ("content-length", toString stats.size)) ∧
    ((streamFile mime utc rr file stats req).statusCode ≠ 304 →
      ("content-length", toString stats.size) ∈
        (streamFile mime utc rr file stats req).headers) := by
  by_cases h : getHeader req.headers "if-none-match" = some (etagOf stats)
  · simp only [streamFile]
    rw [if_pos h]
    simp [setH]
  · simp only [streamFile]
    rw [if_neg h]
    by_cases hm : req.method = "HEAD"
    · rw [if_pos hm]
      simp [setH]
    · rw [if_neg hm]
      cases rr <;> simp [setH]

theorem c9_hit_headers_stat_derived_only_witness :
    (∀ hv ∈ (streamFile (fun _ => "image/png") (fun _ => "utc")
        (ReadResult.ok [1, 2]) "a.png" ⟨2, 7⟩ ⟨"GET", []⟩).headers,
      hv = ("last-modified", (fun _ : Nat => "utc") 7) ∨
      hv = ("content-type", (fun _ : String => "image/png") "a.png") ∨
      hv = ("etag", etagOf ⟨2, 7⟩) ∨
      hv = ("content-length", toString (2 : Nat))) ∧
    ((streamFile (fun _ => "image/png") (fun _ => "utc")
        (ReadResult.ok [1, 2]) "a.png" ⟨2, 7⟩ ⟨"GET", []⟩).statusCode ≠ 304 →
      ("content-length", toString (2 : Nat)) ∈
        (streamFile (fun _ => "image/png") (fun _ => "utc")
          (ReadResult.ok [1, 2]) "a.png" ⟨2, 7⟩ ⟨"GET", []⟩).headers) :=
  c9_hit_headers_stat_derived_only (fun _ => "image/png") (fun _ => "utc")
    (ReadResult.ok [1, 2]) "a.png" ⟨2, 7⟩ ⟨"GET", []⟩

/-- C10: for a HEAD request served as a store hit, the `If-None-Match`
comparison runs before the HEAD short-circuit: a matching tag yields 304
with no Content-Length header and no body, while a non-matching tag
yields 200 with Content-Length set and no body. -/
theorem c10_head_conditional_before_shortcircuit (mime : String → String)
    (utc : Nat → String) (rr : ReadResult) (file : String) (stats : Stats)
    (req : Request) (hm : req.method = "HEAD") :
    (getHeader req.headers "if-none-match" = some (etagOf stats) →
      (streamFile mime utc rr file stats req).statusCode = 304 ∧
      getHeader (streamFile mime utc rr file stats req).headers
        "content-length" = none ∧
      (streamFile mime utc rr file stats req).body = []) ∧
    (getHeader req.headers "if-none-match" ≠ some (etagOf stats) →
      (streamFile mime utc rr file stats req).statusCode = 200 ∧
      getHeader (streamFile mime utc rr file stats req).headers
        "content-length" = some (toString stats.size) ∧
      (streamFile mime utc rr file stats req).body = []) := by
  by_cases h : getHeader req.headers "if-none-match" = some (etagOf stats)
  · simp only [streamFile]
    rw [if_pos h]
    refine ⟨fun _ => ?_, fun hn => absurd h hn⟩
    simp [setH, getHeader, List.find?]
  · simp only [streamFile]
    rw [if_neg h, if_pos hm]
    refine ⟨fun ha => absurd ha h, fun _ => ?_⟩
    simp [setH, getHeader, List.find?]

theorem c10_head_conditional_before_shortcircuit_witness :
    ("HEAD" : String) = "HEAD" ∧
    ((getHeader [("if-none-match", etagOf ⟨4, 9⟩)] "if-none-match" =
        some (etagOf ⟨4, 9⟩) →
      (streamFile (fun _ => "image/png") (fun _ => "utc")
        (ReadResult.ok [1]) "b.png" ⟨4, 9⟩
        ⟨"HEAD", [("if-none-match", etagOf ⟨4, 9⟩)]⟩).statusCode = 304 ∧
      getHeader (streamFile (fun _ => "image/png") (fun _ => "utc")
        (ReadResult.ok [1]) "b.png" ⟨4, 9⟩
        ⟨"HEAD", [("if-none-match", etagOf ⟨4, 9⟩)]⟩).headers
          "content-length" = none ∧
      (streamFile (fun _ => "image/png") (fun _ => "utc")
        (ReadResult.ok [1]) "b.png" ⟨4, 9⟩
        ⟨"HEAD", [("if-none-match", etagOf ⟨4, 9⟩)]⟩).body = []) ∧
    (getHeader [("if-none-match", etagOf ⟨4, 9⟩)] "if-none-match" ≠
        some (etagOf ⟨4, 9⟩) →
      (streamFile (fun _ => "image/png") (fun _ => "utc")
        (ReadResult.ok [1]) "b.png" ⟨4, 9⟩
        ⟨"HEAD", [("if-none-match", etagOf ⟨4, 9⟩)]⟩).statusCode = 200 ∧
      getHeader (streamFile (fun _ => "image/png") (fun _ => "utc")
        (ReadResult.ok [1]) "b.png" ⟨4, 9⟩
        ⟨"HEAD", [("if-none-match", etagOf ⟨4, 9⟩)]⟩).headers
          "content-length" = some (toString (4 : Nat)) ∧
      (streamFile (fun _ => "image/png") (fun _ => "utc")
        (ReadResult.ok [1]) "b.png" ⟨4, 9⟩
        ⟨"HEAD", [("if-none-match", etagOf ⟨4, 9⟩)]⟩).body = [])) :=
  ⟨rfl,
    c10_head_conditional_before_shortcircuit (fun _ => "image/png")
      (fun _ => "utc") (ReadResult.ok [1]) "b.png" ⟨4, 9⟩
      ⟨"HEAD", [("if-none-match", etagOf ⟨4, 9⟩)]⟩ rfl⟩

/-- C2: during a successful cache fill of `key` (lines 332-368), every
filesystem state before the final rename leaves the canonical path
absent, holds only a prefix of the upstream body under the temporary name
`key ++ ".in-progress"`, and touches no path other than the canonical and
temporary ones; the canonical path is never visible with anything but the
complete body; and the final state (after the rename) holds the full body
at the canonical path with the temporary name removed. -/
theorem c2_atomic_publish_via_tmp_rename (fs : String → Option Entry)
    (key : String) (body : List Nat) (h0 : fs key = none) :
    (∀ st ∈ (fillTrace fs key body).dropLast,
      st key = none ∧
      ∃ i, i ≤ body.length ∧ st (tmpName key) = some ⟨body.take i, false⟩) ∧
    (∀ st ∈ fillTrace fs key body, ∀ p, p ≠ key → p ≠ tmpName key →
      st p = fs p) ∧
    (∀ st ∈ fillTrace fs key body,
      st key = none ∨ st key = some ⟨body, false⟩) ∧
    (fillTrace fs key body).getLast? =
      some (mupdate (mupdate fs (tmpName key) none) key
        (some ⟨body, false⟩)) := by
  constructor
  · rw [fillTrace, List.dropLast_concat]
    intro st hst
    rcases List.mem_map.mp hst with ⟨i, hi, rfl⟩
    have hik : i ≤ body.length := by
      have := List.mem_range.mp hi
      omega
    refine ⟨?_, i, hik, mupdate_self _ _ _⟩
    rw [mupdate_other _ _ _ _ (Ne.symm (tmpName_ne key))]
    exact h0
  constructor
  · intro st hst p hpk hpt
    rw [fillTrace] at hst
    rcases List.mem_append.mp hst with hst | hst
    · rcases List.mem_map.mp hst with ⟨i, _, rfl⟩
      exact mupdate_other _ _ _ _ hpt
    · rcases List.mem_singleton.mp hst with rfl
      rw [mupdate_other _ _ _ _ hpk, mupdate_other _ _ _ _ hpt]
  constructor
  · intro st hst
    rw [fillTrace] at hst
    rcases List.mem_append.mp hst with hst | hst
    · rcases List.mem_map.mp hst with ⟨i, _, rfl⟩
      left
      rw [mupdate_other _ _ _ _ (Ne.symm (tmpName_ne key))]
      exact h0
    · rcases List.mem_singleton.mp hst with rfl
      right
      exact mupdate_self _ _ _
  · rw [fillTrace]
    exact List.getLast?_concat _

theorem c2_atomic_publish_via_tmp_rename_witness :
    (fun _ => (none : Option Entry)) "k.png" = none ∧
    (fillTrace (fun _ => none) "k.png" [1, 2]).getLast? =
      some (mupdate (mupdate (fun _ => none) (tmpName "k.png") none) "k.png"
        (some ⟨[1, 2], false⟩)) :=
  ⟨rfl, (c2_atomic_publish_via_tmp_rename (fun _ => none) "k.png" [1, 2]
    rfl).2.2.2⟩

/-- C3: when the upstream answers a cache-fill attempt with a status
outside [200,300) (lines 321-330), no filesystem operation happens at
all: the store map is left unchanged — in particular nothing is created
at the canonical store path of the key, and the temporary
`.in-progress` path is never opened — and the in-flight record for the
key is cleared by `finish` (lines 392-401). -/
theorem c3_non_2xx_no_store_write (s : SState) (key : String)
    (f : InFlight) (status : Nat) (uh : Headers) (body : List Nat)
    (hf : s.inProgress key = some f) (h0 : s.store key = none)
    (hst : status < 200 ∨ 300 ≤ status) :
    (stepUpstream s key status uh body).1.store = s.store ∧
    (stepUpstream s key status uh body).1.store key = none ∧
    (stepUpstream s key status uh body).1.store (tmpName key) =
      s.store (tmpName key) ∧
    (stepUpstream s key status uh body).1.inProgress key = none := by
  simp only [stepUpstream, hf]
  rw [if_pos hst]
  exact ⟨rfl, h0, rfl, mupdate_self _ _ _⟩

theorem c3_non_2xx_no_store_write_witness :
    ((404 : Nat) < 200 ∨ 300 ≤ 404) ∧
    (stepUpstream { store := fun _ => none,
                    inProgress := fun k =>
                      if k = "a.png" then some ⟨0, [1]⟩ else none }
        "a.png" 404 [] [7]).1.inProgress "a.png" = none :=
  ⟨by decide,
    (c3_non_2xx_no_store_write
      { store := fun _ => none,
        inProgress := fun k => if k = "a.png" then some ⟨0, [1]⟩ else none }
      "a.png" ⟨0, [1]⟩ 404 [] [7] (by decide) rfl (by decide)).2.2.2⟩

/-- C4 counterexample: the claim states that waiters queued on the key
receive a generic server-error failure rather than the upstream's own
status.  In the source, `finish({statusCode: res.statusCode})`
(lines 325-327, 392-401) ends every waiter with the upstream's verbatim
status: with one waiter queued and upstream status 404, the waiter's
response status is 404, not 500. -/
theorem c4_counterexample_waiter_gets_upstream_status :
    (stepUpstream { store := fun _ => none,
                    inProgress := fun k =>
                      if k = "a.png" then some ⟨0, [1]⟩ else none }
        "a.png" 404 [] [7]).2 =
      [Output.respond 1 404 [] [], Output.respond 0 404 [] []] ∧
    (404 : Nat) ≠ 500 := by
  decide

/-- C4 amended: on a cache-fill attempt answered with a status outside
[200,300), the status is forwarded verbatim to the triggering client
(with the filtered upstream headers and an empty body), and every queued
waiter is resolved with that same verbatim upstream status and an empty
body — not with a generic server error. -/
theorem c4_amended_status_verbatim_to_all (r0 : Nat) (rest : List Nat)
    (key : String) (status : Nat) (uh : Headers) (body : List Nat)
    (s0 : SState) (h1 : s0.store key = none) (h2 : s0.inProgress key = none)
    (hst : status < 200 ∨ 300 ≤ status) :
    (run s0 ((r0 :: rest).map (fun w => Event.arrive w key) ++
        [Event.upstream key status uh body])).2 =
      Output.fetchStarted key ::
        (rest.map (fun w => Output.respond w status [] []) ++
          [Output.respond r0 status (copyResponseHeaders [] uh) []]) := by
  rw [List.map_cons]
  rw [run_append]
  simp only [run, step, stepArrive, h1, h2]
  rw [run_arrivals key rest
    { store := s0.store,
      inProgress := mupdate s0.inProgress key (some ⟨r0, []⟩) }
    ⟨r0, []⟩ h1 (mupdate_self _ _ _)]
  simp only [run, step, stepUpstream, mupdate_mupdate, mupdate_self]
  rw [if_pos hst]
  simp

theorem c4_amended_status_verbatim_to_all_witness :
    ((404 : Nat) < 200 ∨ 300 ≤ 404) ∧
    (run { store := fun _ => none, inProgress := fun _ => none }
        ((0 :: [1]).map (fun w => Event.arrive w "a.png") ++
          [Event.upstream "a.png" 404 [("x-h", "v")] [7]])).2 =
      Output.fetchStarted "a.png" ::
        ([1].map (fun w => Output.respond w 404 [] []) ++
          [Output.respond 0 404 (copyResponseHeaders [] [("x-h", "v")]) []]) :=
  ⟨by decide,
    c4_amended_status_verbatim_to_all 0 [1] "a.png" 404 [("x-h", "v")] [7]
      { store := fun _ => none, inProgress := fun _ => none } rfl rfl
      (by decide)⟩

/-- C5 counterexample: the claim states that on an upstream 404 the
triggering client receives the 404 together with the upstream's body.
In the source the body forward (`ores.pipe(res)`, line 322) is commented
out and the response is ended empty (line 328): with upstream body
`[7, 8]`, the triggering client's response body is `[]`, not `[7, 8]`
(the repository's own test suite asserts this empty body). -/
theorem c5_counterexample_404_body_dropped :
    (stepUpstream { store := fun _ => none,
                    inProgress := fun k =>
                      if k = "statusCode/404/x.png" then some ⟨0, []⟩
                      else none }
        "statusCode/404/x.png" 404 [] [7, 8]).2 =
      [Output.respond 0 404 [] []] ∧
    ([] : List Nat) ≠ [7, 8] := by
  decide

/-- C5 amended: when the upstream returns 404 on a cache-fill attempt,
the triggering client receives the 404 status verbatim together with the
filtered upstream headers but an empty body — the upstream body is not
forwarded — and no file is created at the store path for that key (the
store map is unchanged). -/
theorem c5_amended_404_status_empty_body (s : SState) (f : InFlight)
    (key : String) (uh : Headers) (body : List Nat)
    (hf : s.inProgress key = some f) (h0 : s.store key = none) :
    (stepUpstream s key 404 uh body).2 =
      (f.waiters.map (fun w => Output.respond w 404 [] [])) ++
        [Output.respond f.trig 404 (copyResponseHeaders [] uh) []] ∧
    (stepUpstream s key 404 uh body).1.store = s.store ∧
    (stepUpstream s key 404 uh body).1.store key = none := by
  simp only [stepUpstream, hf]
  rw [if_pos (by decide : (404 : Nat) < 200 ∨ 300 ≤ 404)]
  exact ⟨rfl, rfl, h0⟩

theorem c5_amended_404_status_empty_body_witness :
    ((fun k => if k = "x.png" then some (⟨0, [1]⟩ : InFlight) else none)
        "x.png" = some ⟨0, [1]⟩) ∧
    (stepUpstream { store := fun _ => none,
                    inProgress := fun k =>
                      if k = "x.png" then some ⟨0, [1]⟩ else none }
        "x.png" 404 [("x-h", "v")] [7]).2 =
      (([1] : List Nat).map (fun w => Output.respond w 404 [] [])) ++
        [Output.respond 0 404 (copyResponseHeaders [] [("x-h", "v")]) []] :=
  ⟨by decide,
    (c5_amended_404_status_empty_body
      { store := fun _ => none,
        inProgress := fun k => if k = "x.png" then some ⟨0, [1]⟩ else none }
      ⟨0, [1]⟩ "x.png" [("x-h", "v")] [7] (by decide) rfl).1⟩

/-- C1: request coalescing.  First conjunct (the registry invariant,
lines 285-293): while an in-flight record exists for a key whose store
path is not yet cached, a further arriving request starts nothing — no
fetch, no response — and is appended to that record's waiter queue.
Second conjunct (end to end, lines 284-435): starting from a state where
`key` is neither cached nor in flight, `1 + rest.length ≥ 2` requests for
`key` followed by the upstream's 200 response produce exactly one
`fetchStarted` output, every request receives a response carrying the
upstream body, and every output is either the single fetch or such a
response — so all responses are byte-identical. -/
theorem c1_singleton_fetch_coalescing (key : String) (r0 : Nat)
    (rest : List Nat) (uh : Headers) (body : List Nat) (s0 : SState)
    (h1 : s0.store key = none) (h2 : s0.inProgress key = none)
    (_hn : rest ≠ []) :
    (∀ (s : SState) (rid : Nat) (f : InFlight), s.store key = none →
      s.inProgress key = some f →
      (stepArrive s rid key).2 = [] ∧
      (stepArrive s rid key).1.inProgress key =
        some ⟨f.trig, f.waiters ++ [rid]⟩) ∧
    ((run s0 ((r0 :: rest).map (fun w => Event.arrive w key) ++
        [Event.upstream key 200 uh body])).2.countP isFetchStarted = 1 ∧
      (∀ rid ∈ r0 :: rest,
        Output.respond rid 200 (copyResponseHeaders [] uh) body ∈
          (run s0 ((r0 :: rest).map (fun w => Event.arrive w key) ++
            [Event.upstream key 200 uh body])).2) ∧
      (∀ o ∈ (run s0 ((r0 :: rest).map (fun w => Event.arrive w key) ++
          [Event.upstream key 200 uh body])).2,
        o = Output.fetchStarted key ∨
          ∃ rid ∈ r0 :: rest,
            o = Output.respond rid 200 (copyResponseHeaders [] uh) body)) := by
  have hrun : (run s0 ((r0 :: rest).map (fun w => Event.arrive w key) ++
      [Event.upstream key 200 uh body])).2 =
      Output.fetchStarted key ::
        (rest.map (fun w =>
            Output.respond w 200 (copyResponseHeaders [] uh) body) ++
          [Output.respond r0 200 (copyResponseHeaders [] uh) body]) := by
    rw [List.map_cons, run_append]
    simp only [run, step, stepArrive, h1, h2]
    rw [run_arrivals key rest
      { store := s0.store,
        inProgress := mupdate s0.inProgress key (some ⟨r0, []⟩) }
      ⟨r0, []⟩ h1 (mupdate_self _ _ _)]
    simp only [run, step, stepUpstream, mupdate_mupdate, mupdate_self]
    rw [if_neg (by omega : ¬((200 : Nat) < 200 ∨ 300 ≤ 200))]
    simp
  refine ⟨?_, ?_, ?_, ?_⟩
  · intro s rid f hs hf
    simp only [stepArrive, hs, hf]
    exact ⟨trivial, mupdate_self _ _ _⟩
  · rw [hrun]
    have hz : (rest.map (fun w =>
        Output.respond w 200 (copyResponseHeaders [] uh) body) ++
        [Output.respond r0 200 (copyResponseHeaders [] uh) body]).countP
          isFetchStarted = 0 := by
      rw [List.countP_eq_zero]
      intro o ho
      rcases List.mem_append.mp ho with ho | ho
      · rcases List.mem_map.mp ho with ⟨w, _, rfl⟩
        simp [isFetchStarted]
      · rcases List.mem_singleton.mp ho with rfl
        simp [isFetchStarted]
    simp [List.countP_cons, hz, isFetchStarted]
  · intro rid hrid
    rw [hrun]
    rcases List.mem_cons.mp hrid with rfl | hrid
    · exact List.mem_cons_of_mem _
        (List.mem_append.mpr (Or.inr (List.mem_singleton.mpr rfl)))
    · exact List.mem_cons_of_mem _
        (List.mem_append.mpr (Or.inl (List.mem_map_of_mem _ hrid)))
  · intro o ho
    rw [hrun] at ho
    rcases List.mem_cons.mp ho with rfl | ho
    · exact Or.inl rfl
    · rcases List.mem_append.mp ho with ho | ho
      · rcases List.mem_map.mp ho with ⟨w, hw, rfl⟩
        exact Or.inr ⟨w, List.mem_cons_of_mem _ hw, rfl⟩
      · rcases List.mem_singleton.mp ho with rfl
        exact Or.inr ⟨r0, List.mem_cons_self _ _, rfl⟩

theorem c1_singleton_fetch_coalescing_witness :
    ([1] : List Nat) ≠ [] ∧
    (run { store := fun _ => none, inProgress := fun _ => none }
        ((0 :: [1]).map (fun w => Event.arrive w "a.png") ++
          [Event.upstream "a.png" 200 [] [9, 9]])).2.countP
      isFetchStarted = 1 :=
  ⟨by decide,
    (c1_singleton_fetch_coalescing "a.png" 0 [1] [] [9, 9]
      { store := fun _ => none, inProgress := fun _ => none } rfl rfl
      (by decide)).2.1⟩

/-- C6 counterexample: the claim states that a path attempting to escape
the cache root is rejected with a 400 client error before any store
lookup.  The pathname `/../x.png` attempts to escape the cache root, yet
`_onRequest` does not reject it: `path.posix.normalize` silently collapses
the leading `..` (clamping at the root) and processing proceeds to a store
lookup at `/cache/x.png`. -/
theorem c6_counterexample_traversal_not_rejected :
    resolvePhase "/cache" "/../x.png" =
      ResolveOutcome.lookup "/cache/x.png" ∧
    resolvePhase "/cache" "/../x.png" ≠ ResolveOutcome.reject400 := by
  decide

/-- C6 amended: the request pathname is percent-decoded and lexically
normalized; a pathname that cannot be decoded is rejected with a 400
client error before any store lookup or upstream access; a decodable
pathname is never rejected — its `.`/`..` segments are collapsed
lexically (for an absolute pathname no `..` segment survives
normalization, so the resolved path is clamped at the cache root rather
than refused) and the store lookup proceeds at the normalized path joined
under the cache root. -/
theorem c6_amended_decode_reject_traversal_collapsed (cacheDir p d : String)
    (hd : decodeURIComponentM p = some d)
    (habs : d.data.head? = some '/') :
    resolvePhase cacheDir p =
      ResolveOutcome.lookup (posixJoin cacheDir (posixNormalize d)) ∧
    ['.', '.'] ∉ normSegs (decide (d.data.head? = some '/')) []
      (splitSegs d.data) ∧
    (∀ q, decodeURIComponentM q = none →
      resolvePhase cacheDir q = ResolveOutcome.reject400) := by
  refine ⟨?_, ?_, ?_⟩
  · simp [resolvePhase, hd]
  · have hb : (decide (d.data.head? = some '/')) = true := by simp [habs]
    rw [hb]
    exact normSegs_no_dotdot _ _ (by simp)
  · intro q hq
    simp [resolvePhase, hq]

theorem c6_amended_decode_reject_traversal_collapsed_witness :
    decodeURIComponentM "/a/../b%20c.png" = some "/a/../b c.png" ∧
    resolvePhase "/cache" "/a/../b%20c.png" =
      ResolveOutcome.lookup
        (posixJoin "/cache" (posixNormalize "/a/../b c.png")) :=
  ⟨by decide,
    (c6_amended_decode_reject_traversal_collapsed "/cache" "/a/../b%20c.png"
      "/a/../b c.png" (by decide) (by decide)).1⟩
